import Mathlib

/-!
# Verification of the PyLunix theme-resolution and style-caching engine

Shallow embedding of the theming subsystem of the PyLunix widget toolkit:

* `pylunix/utils/yaml_util.py`   — `YAMLProcessor` (token documents, reference
  resolution, theme namespaces, component resolution);
* `pylunix/utils/qss_utils.py`   — `QSSProcessor` (whole-token, longest-first
  template substitution with caches);
* `pylunix/common/widget_registry.py` — `WidgetRegistry` (weak widget bindings,
  batch restyle);
* `pylunix/common/theme_manager.py`  — `ThemeManager` (orchestrator, caches,
  theme switching).

Python dicts are modelled as insertion-ordered association lists (`pyGet` /
`pySet`), YAML values as the inductive `YVal`, the filesystem as a total map
from path strings to optional parsed documents (for `.yaml`) or optional text
(for `.qss`).  Statements that can raise in Python return `Except PyErr`;
state mutation is explicit state passing over the `Sys` record.
-/

set_option maxHeartbeats 1000000

/-! ## Python dict model: insertion-ordered association lists -/

/-- `d.get(k)`: first (unique, for dict-derived lists) binding of `k`. -/
def pyGet {α β : Type} [DecidableEq α] : List (α × β) → α → Option β
  | [], _ => none
  | (k0, v0) :: rest, k => if k0 = k then some v0 else pyGet rest k

/-- `d[k] = v`: update the binding in place if `k` is present (keeping its
position, as Python dicts do), else append the new binding at the end. -/
def pySet {α β : Type} [DecidableEq α] : List (α × β) → α → β → List (α × β)
  | [], k, v => [(k, v)]
  | (k0, v0) :: rest, k, v =>
    if k0 = k then (k, v) :: rest else (k0, v0) :: pySet rest k v

@[simp] theorem pyGet_nil {α β : Type} [DecidableEq α] (k : α) :
    pyGet ([] : List (α × β)) k = none := rfl

theorem pyGet_pySet_self {α β : Type} [DecidableEq α]
    (m : List (α × β)) (k : α) (v : β) : pyGet (pySet m k v) k = some v := by
  induction m with
  | nil => simp [pyGet, pySet]
  | cons hd tl ih =>
    obtain ⟨k0, v0⟩ := hd
    by_cases h : k0 = k
    · simp [pyGet, pySet, h]
    · simp [pyGet, pySet, h, ih]

theorem pyGet_pySet_ne {α β : Type} [DecidableEq α]
    (m : List (α × β)) (k k' : α) (v : β) (h : k ≠ k') :
    pyGet (pySet m k v) k' = pyGet m k' := by
  induction m with
  | nil => simp [pyGet, pySet, h]
  | cons hd tl ih =>
    obtain ⟨k0, v0⟩ := hd
    by_cases h0 : k0 = k
    · subst h0
      simp [pyGet, pySet, h]
    · simp [pyGet, pySet, h0, ih]

theorem pySet_keys {α β : Type} [DecidableEq α]
    (m : List (α × β)) (k : α) (v : β) (k' : α) :
    (k' ∈ (pySet m k v).map Prod.fst) ↔ (k' = k ∨ k' ∈ m.map Prod.fst) := by
  induction m with
  | nil => simp [pySet, eq_comm]
  | cons hd tl ih =>
    obtain ⟨k0, v0⟩ := hd
    by_cases h0 : k0 = k
    · subst h0
      simp [pySet]
    · simp only [pySet, h0, if_false, List.map_cons, List.mem_cons, ih]
      tauto

theorem pySet_keys_nodup {α β : Type} [DecidableEq α]
    (m : List (α × β)) (k : α) (v : β) (h : (m.map Prod.fst).Nodup) :
    ((pySet m k v).map Prod.fst).Nodup := by
  induction m with
  | nil => simp [pySet]
  | cons hd tl ih =>
    obtain ⟨k0, v0⟩ := hd
    simp only [List.map_cons, List.nodup_cons] at h
    by_cases h0 : k0 = k
    · subst h0
      simpa [pySet] using h
    · simp only [pySet, h0, if_false, List.map_cons, List.nodup_cons]
      refine ⟨?_, ih h.2⟩
      intro hmem
      rcases (pySet_keys tl k v k0).1 hmem with h1 | h1
      · exact h0 h1
      · exact h.1 h1

/-! ## YAML values -/

/-- A parsed YAML value, as produced by `yaml.safe_load`.  Mapping keys are
modelled as strings (the token documents of this repository use string keys
throughout); floats do not occur in the claims and are not modelled. -/
inductive YVal where
  | null
  | b (v : Bool)
  | num (v : Int)
  | s (v : String)
  | seq (items : List YVal)
  | map (entries : List (String × YVal))

/-- Python truthiness of a parsed YAML value (`bool(x)`). -/
def YVal.truthy : YVal → Bool
  | .null => false
  | .b v => v
  | .num v => v != 0
  | .s v => v != ""
  | .seq items => !items.isEmpty
  | .map es => !es.isEmpty

/-- `dict(x)` on a loaded document: the top-level entries of a mapping.
(`dict` applied to a non-mapping raises `TypeError` in Python; the claims only
apply it to mappings or to the empty document, so that branch is not
modelled.) -/
def yamlToDict : YVal → List (String × YVal)
  | .map es => es
  | _ => []

/-- The parsed-YAML view of the filesystem: `fs path` is the parse of the file
at `path`, or `none` when the file is missing. -/
def FS : Type := String → Option YVal

/-! ## `yaml_util.py` — `YAMLProcessor` -/

namespace YAMLProcessor

/-- `YAMLProcessor._load_file_cached` (yaml_util.py:25-40): open and parse the
file, coercing a falsy parse to `{}` (`yaml.safe_load(f) or {}`), and catching
`FileNotFoundError` to return `{}`.  The module-level `_FILE_CACHE` is keyed
by path and modification time; with a fixed filesystem (fixed contents and
mtimes) the cache is a transparent memo of the parse, so it is not part of the
model's state. -/
def load_file_cached (fs : FS) (path : String) : YVal :=
  match fs path with
  | none => .map []                       -- except FileNotFoundError: data = {}
  | some v => if v.truthy then v else .map []

/-- yaml_util.py:72-74 — `dict(self._load_file_cached(self.path) or {})`. -/
def yaml_to_dict (fs : FS) (path : String) : List (String × YVal) :=
  yamlToDict (load_file_cached fs path)

/-- Characters stripped by `value.strip("{}")`. -/
def isBrace (c : Char) : Bool := c = '{' || c = '}'

/-- Python `value.strip("{}")`: remove leading and trailing braces. -/
def stripBraces (s : String) : String :=
  ⟨((s.data.dropWhile isBrace).reverse.dropWhile isBrace).reverse⟩

/-- Python `key.split(".")` on the character list (`"".split(".") == [""]`,
`"a..b".split(".") == ["a", "", "b"]`). -/
def splitDot : List Char → List (List Char)
  | [] => [[]]
  | c :: cs =>
    if c = '.' then [] :: splitDot cs
    else
      match splitDot cs with
      | [] => [[c]]
      | g :: gs => (c :: g) :: gs

/-- Walk a dotted key path through nested mappings: at each segment require a
mapping containing the segment (`isinstance(result, dict) and (k in result)`);
`none` on any structural miss. -/
def walkMap : YVal → List (List Char) → Option YVal
  | v, [] => some v
  | .map es, k :: ks =>
    match pyGet es ⟨k⟩ with
    | some v => walkMap v ks
    | none => none
  | _, _ :: _ => none

/-- Python `value.startswith("{")`. -/
def startsWithBrace (s : String) : Bool :=
  match s.data with
  | '{' :: _ => true
  | _ => false

/-- Python `value.endswith("}")`. -/
def endsWithBrace (s : String) : Bool :=
  match s.data.getLast? with
  | some '}' => true
  | _ => false

/-- `YAMLProcessor.resolve_value` (yaml_util.py:91-109): expand `{a.b.c}`
tokens against the base document `base` (= `self.data`); non-token values pass
through unchanged; a failed walk returns `None` (here `.null`, which is also
how a stored YAML `null` surfaces — the two are the same Python `None`). -/
def resolve_value (base : YVal) : YVal → YVal
  | .s v =>
    if startsWithBrace ⟨v.data⟩ && endsWithBrace ⟨v.data⟩ then
      match walkMap base (splitDot (stripBraces ⟨v.data⟩).data) with
      | some r => r
      | none => .null
    else .s v
  | v => v

/-- `YAMLProcessor._get_theme_dict` (yaml_util.py:111-121): top-level key equal
to the theme name if its value is a mapping, else the `Themes` container
indexed by theme (`alt.get(theme, {}) or {}` — a falsy value coerces to `{}`),
else `{}`. -/
def get_theme_dict (base : YVal) (theme : String) : YVal :=
  match base with
  | .map es =>
    match pyGet es theme with
    | some (.map tes) => .map tes
    | _ =>
      match pyGet es "Themes" with
      | some (.map alt) =>
        match pyGet alt theme with
        | some v => if v.truthy then v else .map []
        | none => .map []
      | _ => .map []
  | _ => .map []

/-- The candidate-key list built from a component entry's value
(yaml_util.py:137-147): scalar string → one expanded candidate; sequence →
each element expanded; mapping → each value expanded; `null` → no candidates;
any other scalar → itself. -/
def mkKeys (base : YVal) : YVal → List YVal
  | .s v => [resolve_value base (.s v)]
  | .seq items => items.map (resolve_value base)
  | .map es => es.map (fun p => resolve_value base p.2)
  | .null => []
  | v => [v]

/-- `key in theme_dict` followed by `theme_dict.get(key)`
(yaml_util.py:156-157); only string keys can be present. -/
def themeLookup (themeDict : YVal) (key : String) : Option YVal :=
  match themeDict with
  | .map tes => pyGet tes key
  | _ => none

/-- Python `"." in key`. -/
def containsDot (s : String) : Bool := s.data.contains '.'

/-- The candidate loop of `YAMLProcessor.resolve` (yaml_util.py:149-173):
skip `None` candidates; accept a mapping/sequence directly; else try the theme
namespace; else, for dotted strings, a nested walk into the theme namespace;
else accept a non-string, or a string not starting with `{`, as a literal.
Returns the value the loop `break`s with (`some .null` when the accepted theme
entry is itself `None`), or `none` when no candidate is accepted. -/
def acceptCandidates (themeDict : YVal) : List YVal → Option YVal
  | [] => none
  | k :: rest =>
    match k with
    | .null => acceptCandidates themeDict rest
    | .map es => some (.map es)
    | .seq items => some (.seq items)
    | .s str =>
      match themeLookup themeDict str with
      | some v => some v
      | none =>
        if containsDot str then
          match walkMap themeDict (splitDot str.data) with
          | some cur => some cur
          | none =>
            if startsWithBrace str then acceptCandidates themeDict rest
            else some (.s str)
        else
          if startsWithBrace str then acceptCandidates themeDict rest
          else some (.s str)
    | v => some v

/-- One entry of the resolution (yaml_util.py:149-174): the first accepted
candidate's value, falling back to the original `attrs` value when nothing is
accepted or the accepted value is `None`
(`resolved[comp] = found if found is not None else attrs`). -/
def resolveEntry (base themeDict : YVal) (attrs : YVal) : YVal :=
  match acceptCandidates themeDict (mkKeys base attrs) with
  | some .null => attrs
  | some v => v
  | none => attrs

/-- `YAMLProcessor.resolve` (yaml_util.py:123-176): load the component
document at `path` from the cache, compute the theme namespace from the base
document `base` (= `self.data`), and resolve every entry. -/
def resolve (fs : FS) (base : YVal) (path theme : String) :
    List (String × YVal) :=
  let compData := load_file_cached fs path
  let themeDict := get_theme_dict base theme
  (yamlToDict compData).foldl
    (fun acc ce => pySet acc ce.1 (resolveEntry base themeDict ce.2)) []

end YAMLProcessor

/-! ## `qss_utils.py` — `QSSProcessor`: pure substitution engine

The compiled pattern (qss_utils.py:18-25) is
`(?<![A-Za-z0-9_])(?:k1|k2|...)(?![A-Za-z0-9_])` with the variable names
sorted by length, longest first (Python's sort is stable, so names of equal
length keep dictionary insertion order).  `re.sub` scans the text left to
right; at each position the alternation tries the names in listed order and
the first that matches (with both boundary lookarounds satisfied) wins; the
scan then resumes after the matched name, and the lookbehind at the resume
position still inspects the *original* text (the last character of the
matched name), not the replacement. -/

namespace QSSProcessor

/-- A character of the class `[A-Za-z0-9_]` (ASCII, as in the pattern). -/
def isWordChar (c : Char) : Bool := c.isAlphanum || c = '_'

/-- Insert into a length-descending list, after all names of length ≥ its
own (stability: earlier names of equal length stay first). -/
def insertLenDesc (k : String) : List String → List String
  | [] => [k]
  | x :: xs => if x.length ≤ k.length then k :: x :: xs else x :: insertLenDesc k xs

/-- Stable sort, longest first: `sorted(keys, key=len, reverse=True)`. -/
def sortLenDesc : List String → List String
  | [] => []
  | x :: xs => insertLenDesc x (sortLenDesc xs)

/-- The alternation order of the compiled pattern (qss_utils.py:22). -/
def patternKeys (vars : List (String × YVal)) : List String :=
  sortLenDesc (vars.map Prod.fst)

/-- One alternation attempt at a position: the name is a prefix of the rest of
the text, the previous original character (if any) is not a word character
(lookbehind), and neither is the character following the matched name
(lookahead).  An empty name never arises from the token documents' named keys
and is treated as non-matching (Python's `re` would give it a zero-width
match). -/
def matchKeyAt (prev : Option Char) (k : List Char) (cs : List Char) : Bool :=
  !k.isEmpty && k.isPrefixOf cs &&
    (match prev with | some c => !isWordChar c | none => true) &&
    (match cs.drop k.length with | c :: _ => !isWordChar c | [] => true)

/-- First name of the alternation that matches at this position. -/
def findKeyAt (prev : Option Char) (cs : List Char) : List String → Option String
  | [] => none
  | k :: ks => if matchKeyAt prev k.data cs then some k else findKeyAt prev cs ks

/-- `", ".join` of already-rendered items. -/
def joinComma : List String → String
  | [] => ""
  | [x] => x
  | x :: xs => x ++ ", " ++ joinComma xs

mutual
/-- Python `repr` of a parsed YAML value (used by `str` on non-string
values; string escaping subtleties inside `repr` are not relied on by any
claim). -/
def pyRepr : YVal → String
  | .null => "None"
  | .b true => "True"
  | .b false => "False"
  | .num i => toString i
  | .s v => "\x27" ++ v ++ "\x27"
  | .seq items => "[" ++ joinComma (pyReprList items) ++ "]"
  | .map es => "\x7b" ++ joinComma (pyReprPairs es) ++ "\x7d"

def pyReprList : List YVal → List String
  | [] => []
  | x :: xs => pyRepr x :: pyReprList xs

def pyReprPairs : List (String × YVal) → List String
  | [] => []
  | (k, v) :: rest => ("\x27" ++ k ++ "\x27: " ++ pyRepr v) :: pyReprPairs rest
end

/-- Python `str(value)`. -/
def pyStr : YVal → String
  | .s v => v
  | v => pyRepr v

/-- The replacement function `_repl` (qss_utils.py:43-45):
`str(self.variables.get(key, key))`. -/
def varLookup (vars : List (String × YVal)) (k : String) : String :=
  match pyGet vars k with
  | some v => pyStr v
  | none => k

/-- The `re.sub` scan.  `fuel` only serves termination: every step consumes at
least one character, so `fuel = cs.length` always suffices (the fuel-0 branch
returns the text unchanged and is unreachable from `apply_to_string`). -/
def substAux (vars : List (String × YVal)) (keys : List String) :
    Nat → Option Char → List Char → List Char
  | 0, _, cs => cs
  | _ + 1, _, [] => []
  | fuel + 1, prev, c :: cs =>
    match findKeyAt prev (c :: cs) keys with
    | some k =>
      (varLookup vars k).data ++
        substAux vars keys fuel (some (k.data.getLast?.getD c)) ((c :: cs).drop k.data.length)
    | none => c :: substAux vars keys fuel (some c) cs

/-- `QSSProcessor.apply_to_string` (qss_utils.py:39-46): unchanged when no
variables are set (`self._pattern is None`), else the substitution scan. -/
def apply_to_string (vars : List (String × YVal)) (content : String) : String :=
  if vars.isEmpty then content
  else ⟨substAux vars (patternKeys vars) content.data.length none content.data⟩

/-- Whether some name matches (with boundaries) at some position of the scan:
the text contains a whole-token occurrence of a variable name. -/
def hasTokenOccurrence (keys : List String) : Option Char → List Char → Bool
  | _, [] => false
  | prev, c :: cs => (findKeyAt prev (c :: cs) keys).isSome || hasTokenOccurrence keys (some c) cs

end QSSProcessor

/-! ## System state and external world -/

/-- Widget identity.  A widget is an external collaborator; the registry holds
a non-owning (weak) reference, so a widget may be destroyed while registered. -/
abbrev Wid := Nat

/-- The external environment: the `.qss` template files on disk and the
widget collaborators' behavior.  `alive` is whether the widget object still
exists (a dead widget has been removed from every `WeakKeyDictionary`);
`setOk` / `iconOk` model whether `widget.setStyleSheet` / `widget.updateIcon`
succeed or raise (failure injection for the catch-and-log paths). -/
structure World where
  tfs : String → Option String
  alive : Wid → Bool
  prop : Wid → Option String
  hasUpdateIcon : Wid → Bool
  setOk : Wid → Bool
  iconOk : Wid → Bool

/-- The Python exceptions relevant to the claims. -/
inductive PyErr where
  | fileNotFound    -- FileNotFoundError
  | unboundLocal    -- UnboundLocalError
  | styleFailure    -- an exception out of widget.setStyleSheet

/-- The mutable state of the subsystem: the `ThemeManager` singleton's fields
and class-level caches, its `QSSProcessor`'s and `WidgetRegistry`'s state, and
(as an observation of widget effects) the stylesheet text last successfully
applied to each widget.  `resolveCount` is ghost instrumentation counting the
invocations of `YAMLProcessor.resolve` (the spec's call-count verification of
cache hits); it shadows no Python field and influences nothing. -/
structure Sys where
  theme : String
  commonDict : List (String × YVal)          -- _COMMON_DICT_CACHE
  componentResources : List (String × YVal)  -- self.component_resources
  resolvedCache : List (String × (List (String × YVal) × String))  -- _RESOLVED_CACHE
  rawDataCache : List (String × List (String × YVal))              -- _RAW_DATA_CACHE
  loadedComponents : List String             -- _LOADED_COMPONENTS
  resolveCount : Nat                         -- ghost call counter
  qssVariables : List (String × YVal)        -- QSSProcessor.variables
  templateCache : List (String × String)     -- QSSProcessor._template_cache
  processedCache : List (String × String)    -- QSSProcessor._processed_cache
  regWidgets : List (Wid × Option String)    -- WidgetRegistry._widgets (weak)
  existingQssPaths : List (String × String)  -- WidgetRegistry._existing_qss_paths
  missingQss : List String                   -- WidgetRegistry._missing_qss_components
  appliedStyles : List (Wid × String)        -- last style text each widget accepted

/-! ## `qss_utils.py` — stateful operations -/

namespace QSSProcessor

/-- `QSSProcessor.set_variables` (qss_utils.py:13-16): replace the variable
mapping, recompile the pattern (derived here from `qssVariables`), clear the
processed-output cache.  In the source the mapping passed is always
`ThemeManager.component_resources` (the same object, aliased). -/
def set_variables (s : Sys) (vars : List (String × YVal)) : Sys :=
  { s with qssVariables := vars, processedCache := [] }

/-- `QSSProcessor._read_template` (qss_utils.py:27-37): cached read; a missing
template file is a hard `FileNotFoundError`. -/
def read_template (w : World) (s : Sys) (p : String) : Sys × Except PyErr String :=
  match pyGet s.templateCache p with
  | some c => (s, .ok c)
  | none =>
    match w.tfs p with
    | none => (s, .error .fileNotFound)
    | some content => ({ s with templateCache := pySet s.templateCache p content }, .ok content)

/-- `QSSProcessor.get_processed_stylesheet` = `apply_to_file`
(qss_utils.py:48-59): processed-output cache, else read the template, expand
it against the current variables and cache the result. -/
def get_processed_stylesheet (w : World) (s : Sys) (p : String) :
    Sys × Except PyErr String :=
  match pyGet s.processedCache p with
  | some c => (s, .ok c)
  | none =>
    let r := read_template w s p
    match r.2 with
    | .error e => (r.1, .error e)
    | .ok t =>
      let processed := apply_to_string r.1.qssVariables t
      ({ r.1 with processedCache := pySet r.1.processedCache p processed }, .ok processed)

end QSSProcessor

/-! ## `widget_registry.py` — `WidgetRegistry` -/

namespace WidgetRegistry

/-- `Path("pylunix/controls") / component_name / f"{component_name}.qss"`
(widget_registry.py:26). -/
def qssPathFor (name : String) : String :=
  "pylunix/controls/" ++ name ++ "/" ++ name ++ ".qss"

/-- `WidgetRegistry._get_qss_path` (widget_registry.py:16-34): falsy component
name → `None`; positive cache, then negative cache, then a filesystem probe
feeding one of them. -/
def get_qss_path (w : World) (s : Sys) (comp : Option String) :
    Sys × Option String :=
  match comp with
  | none => (s, none)
  | some name =>
    if name == "" then (s, none)
    else
      match pyGet s.existingQssPaths name with
      | some p => (s, some p)
      | none =>
        if s.missingQss.contains name then (s, none)
        else
          let p := qssPathFor name
          if (w.tfs p).isSome then
            ({ s with existingQssPaths := pySet s.existingQssPaths name p }, some p)
          else
            ({ s with missingQss := name :: s.missingQss }, none)

/-- One guarded style application (the try/except bodies at
widget_registry.py:46-52, 58-63, 76-81, 89-94): expand the template (its cache
mutations persist even if a later step fails), then `widget.setStyleSheet`;
any exception is caught and logged, leaving the widget's previous style. -/
def try_apply_file (w : World) (s : Sys) (wid : Wid) (p : String) : Sys × Bool :=
  let r := QSSProcessor.get_processed_stylesheet w s p
  match r.2 with
  | .error _ => (r.1, false)
  | .ok content =>
    if w.setOk wid then
      ({ r.1 with appliedStyles := pySet r.1.appliedStyles wid content }, true)
    else (r.1, false)

/-- The widget-property fallback (`widget.property("qss_path")`,
widget_registry.py:54-63 and 83-94): a truthy property value naming an
existing file is tried; otherwise nothing is applied. -/
def prop_fallback (w : World) (s : Sys) (wid : Wid) : Sys × Bool :=
  match w.prop wid with
  | some pp =>
    if pp == "" then (s, false)
    else if (w.tfs pp).isSome then try_apply_file w s wid pp
    else (s, false)
  | none => (s, false)

/-- The shared application sequence of `register` and `update_all`: component
qss path first, widget property second. -/
def apply_steps (w : World) (s : Sys) (wid : Wid) (comp : Option String) :
    Sys × Bool :=
  let r := get_qss_path w s comp
  match r.2 with
  | some p =>
    let t := try_apply_file w r.1 wid p
    if t.2 then t else prop_fallback w t.1 wid
  | none => prop_fallback w r.1 wid

/-- `WidgetRegistry.register` (widget_registry.py:36-66): a widget already in
the weak dictionary (hence alive — a dead widget has been dropped from it, and
a caller-supplied widget is alive by construction) only has its association
updated; a new widget is recorded and styled via the application sequence. -/
def register (w : World) (s : Sys) (wid : Wid) (comp : Option String) : Sys :=
  if w.alive wid && (pyGet s.regWidgets wid).isSome then
    { s with regWidgets := pySet s.regWidgets wid comp }
  else
    let s1 := { s with regWidgets := pySet s.regWidgets wid comp }
    (apply_steps w s1 wid comp).1

/-- The body of `update_all`'s loop for one (widget, component) pair
(widget_registry.py:69-102): the application sequence, then the optional
`updateIcon` hook, whose failure is caught and which touches no modelled
state. -/
def update_one (w : World) (s : Sys) (wid : Wid) (comp : Option String) : Sys :=
  (apply_steps w s wid comp).1

def update_all_aux (w : World) : List (Wid × Option String) → Sys → Sys × List Wid
  | [], s => (s, [])
  | (wid, comp) :: rest, s =>
    let s1 := update_one w s wid comp
    let r := update_all_aux w rest s1
    (r.1, wid :: r.2)

/-- `WidgetRegistry.update_all` (widget_registry.py:68-102): iterate a
snapshot of the weak dictionary's items — which yields exactly the still-alive
registered widgets, destroyed ones having been dropped automatically — and
restyle each.  Also returns the list of widgets processed (the loop's
iteration log). -/
def update_all (w : World) (s : Sys) : Sys × List Wid :=
  update_all_aux w (s.regWidgets.filter (fun p => w.alive p.1)) s

end WidgetRegistry

/-! ## `theme_manager.py` — `ThemeManager` -/

namespace ThemeManager

/-- `Path(__file__).parent.parent / "resources" / "common_themeresources_any.yaml"`
(theme_manager.py:32), with the package root rendered as `pylunix/`. -/
def common_yaml_path : String := "pylunix/resources/common_themeresources_any.yaml"

/-- `os.path.join(DIR, components_dir, component_name, f"{component_name}.yaml")`
with `DIR` the package root (theme_manager.py:79-80). -/
def componentYamlPath (dir comp : String) : String :=
  "pylunix/" ++ dir ++ "/" ++ comp ++ "/" ++ comp ++ ".yaml"

/-- `ThemeManager.__init__` (theme_manager.py:29-39): theme `"Default"`, the
common document loaded and copied into `component_resources`, the
`QSSProcessor` created over that mapping, the `WidgetRegistry` empty, and the
class-level caches empty (singleton: one instance per process). -/
def init (fs : FS) : Sys :=
  let cd := YAMLProcessor.yaml_to_dict fs common_yaml_path
  { theme := "Default"
    commonDict := cd
    componentResources := cd
    resolvedCache := []
    rawDataCache := []
    loadedComponents := []
    resolveCount := 0
    qssVariables := cd
    templateCache := []
    processedCache := []
    regWidgets := []
    existingQssPaths := []
    missingQss := []
    appliedStyles := [] }

/-- `ThemeManager.get_resolved_data_and_path` (theme_manager.py:73-87): the
per-component resolved cache, else resolve the component document against the
common document under the current theme and populate the cache.  The ghost
`resolveCount` increments exactly when `YAMLProcessor.resolve` runs. -/
def get_resolved_data_and_path (fs : FS) (s : Sys) (dir comp : String) :
    Sys × List (String × YVal) × String :=
  match pyGet s.resolvedCache comp with
  | some e => (s, e.1, e.2)
  | none =>
    let path := componentYamlPath dir comp
    let base := YAMLProcessor.load_file_cached fs common_yaml_path
    let data := YAMLProcessor.resolve fs base path s.theme
    ({ s with resolvedCache := pySet s.resolvedCache comp (data, path),
              resolveCount := s.resolveCount + 1 },
     data, path)

/-- `ThemeManager.get_default_value` (theme_manager.py:89-103): the raw
(unresolved) component document via its own cache; a string raw value is
substituted through the common document once (one level of indirection). -/
def get_default_value (fs : FS) (s : Sys) (yamlPath name : String) : Sys × YVal :=
  let rs :=
    match pyGet s.rawDataCache yamlPath with
    | some r => (s, r)
    | none =>
      let r := YAMLProcessor.yaml_to_dict fs yamlPath
      ({ s with rawDataCache := pySet s.rawDataCache yamlPath r }, r)
  match (pyGet rs.2 name).getD .null with
  | .s str => (rs.1, (pyGet rs.1.commonDict str).getD (.s str))
  | v => (rs.1, v)

/-- `ThemeManager.get_resolved_value` (theme_manager.py:65-71): the entry of
the resolved component mapping, falling back to `get_default_value` when it is
absent or `None`. -/
def get_resolved_value (fs : FS) (s : Sys) (name dir comp : String) : Sys × YVal :=
  let r := get_resolved_data_and_path fs s dir comp
  match pyGet r.2.1 name with
  | some .null => get_default_value fs r.1 r.2.2 name
  | some v => (r.1, v)
  | none => get_default_value fs r.1 r.2.2 name

/-- The loop of `load_component` (theme_manager.py:53-56): each resolved entry
— with `None` values replaced through `get_default_value` — is written into
the accumulated `component_resources` map.  The second component of the result
is the Python local variable `value` after the loop: `none` when the loop
bound nothing. -/
def loadEntries (fs : FS) (path : String) :
    List (String × YVal) → Sys → Sys × Option YVal
  | [], s => (s, none)
  | (name, v) :: rest, s =>
    let sv :=
      match v with
      | .null => get_default_value fs s path name
      | v => (s, v)
    let s1 := { sv.1 with componentResources := pySet sv.1.componentResources name sv.2 }
    let r := loadEntries fs path rest s1
    match r.2 with
    | none => (r.1, some sv.2)
    | some lv => (r.1, some lv)

/-- `ThemeManager.load_component` (theme_manager.py:45-63): early return when
already loaded; else resolve, merge every entry into the accumulated map, push
the mapping into the `QSSProcessor`, mark the component loaded — and then
`return value`, which raises `UnboundLocalError` when the loop above ran zero
iterations (empty resolved data, e.g. a missing component document), the
state mutations having already happened. -/
def load_component (fs : FS) (s : Sys) (dir comp : String) :
    Sys × Except PyErr YVal :=
  if s.loadedComponents.contains comp then (s, .ok .null)
  else
    let r := get_resolved_data_and_path fs s dir comp
    let le := loadEntries fs r.2.2 r.2.1 r.1
    let s3 := QSSProcessor.set_variables le.1 le.1.componentResources
    let s4 := { s3 with loadedComponents := s3.loadedComponents ++ [comp] }
    match le.2 with
    | some v => (s4, .ok v)
    | none => (s4, .error .unboundLocal)

/-- The reload loop of `set_theme` (theme_manager.py:115-116); an exception
out of `load_component` propagates, aborting the loop (Python's set iteration
order is unspecified; the model keeps insertion order, on which no claim
depends). -/
def reloadLoop (fs : FS) : List String → Sys → Sys × Except PyErr Unit
  | [], s => (s, .ok ())
  | c :: cs, s =>
    let r := load_component fs s "controls" c
    match r.2 with
    | .ok _ => reloadLoop fs cs r.1
    | .error e => (r.1, .error e)

/-- `ThemeManager.set_theme` (theme_manager.py:105-118): no-op when the theme
is unchanged; else set the theme, clear the resolved cache, snapshot and clear
the loaded set, reload every previously loaded component (under
`components_dir = "controls"`), then restyle all registered widgets. -/
def set_theme (fs : FS) (w : World) (s : Sys) (theme : String) :
    Sys × Except PyErr Unit :=
  if s.theme == theme then (s, .ok ())
  else
    let s1 := { s with theme := theme }
    let toReload := s1.loadedComponents
    let s2 := { s1 with resolvedCache := [], loadedComponents := [] }
    let r := reloadLoop fs toReload s2
    match r.2 with
    | .ok _ => ((WidgetRegistry.update_all w r.1).1, .ok ())
    | .error e => (r.1, .error e)

/-- `ThemeManager.register` (theme_manager.py:41-43): ensure the component is
loaded, then bind and style the widget. -/
def register (fs : FS) (w : World) (s : Sys) (wid : Wid) (dir comp : String) :
    Sys × Except PyErr Unit :=
  let r := load_component fs s dir comp
  match r.2 with
  | .ok _ => (WidgetRegistry.register w r.1 wid (some comp), .ok ())
  | .error e => (r.1, .error e)

end ThemeManager

/-- The states reachable from `ThemeManager` construction through its public
operations (with a fixed filesystem and world). -/
inductive Reachable (fs : FS) (w : World) : Sys → Prop where
  | init : Reachable fs w (ThemeManager.init fs)
  | load (s : Sys) (dir comp : String) : Reachable fs w s →
      Reachable fs w (ThemeManager.load_component fs s dir comp).1
  | reg (s : Sys) (wid : Wid) (dir comp : String) : Reachable fs w s →
      Reachable fs w (ThemeManager.register fs w s wid dir comp).1
  | getVal (s : Sys) (name dir comp : String) : Reachable fs w s →
      Reachable fs w (ThemeManager.get_resolved_value fs s name dir comp).1
  | getDef (s : Sys) (p name : String) : Reachable fs w s →
      Reachable fs w (ThemeManager.get_default_value fs s p name).1
  | setThm (s : Sys) (t : String) : Reachable fs w s →
      Reachable fs w (ThemeManager.set_theme fs w s t).1
  | regW (s : Sys) (wid : Wid) (comp : Option String) : Reachable fs w s →
      Reachable fs w (WidgetRegistry.register w s wid comp)
  | upd (s : Sys) : Reachable fs w s →
      Reachable fs w (WidgetRegistry.update_all w s).1

/-! ## Lemmas about the resolution fold -/

namespace YAMLProcessor

theorem resolve_fold_preserve (f : YVal → YVal) (entries : List (String × YVal))
    (acc : List (String × YVal)) (comp : String)
    (h : comp ∉ entries.map Prod.fst) :
    pyGet (entries.foldl (fun a ce => pySet a ce.1 (f ce.2)) acc) comp = pyGet acc comp := by
  induction entries generalizing acc with
  | nil => rfl
  | cons hd tl ih =>
    obtain ⟨k0, v0⟩ := hd
    simp only [List.map_cons, List.mem_cons] at h
    push_neg at h
    simp only [List.foldl_cons]
    rw [ih _ h.2, pyGet_pySet_ne _ _ _ _ (fun hk => h.1 hk.symm)]

theorem resolve_fold_get (f : YVal → YVal) (entries : List (String × YVal))
    (acc : List (String × YVal)) (comp : String) (attrs : YVal)
    (hmem : pyGet entries comp = some attrs)
    (hnodup : (entries.map Prod.fst).Nodup) :
    pyGet (entries.foldl (fun a ce => pySet a ce.1 (f ce.2)) acc) comp = some (f attrs) := by
  induction entries generalizing acc with
  | nil => simp [pyGet] at hmem
  | cons hd tl ih =>
    obtain ⟨k0, v0⟩ := hd
    simp only [List.map_cons, List.nodup_cons] at hnodup
    by_cases h0 : k0 = comp
    · subst h0
      simp [pyGet] at hmem
      subst hmem
      simp only [List.foldl_cons]
      rw [resolve_fold_preserve _ _ _ _ hnodup.1, pyGet_pySet_self]
    · simp only [pyGet, if_neg h0] at hmem
      simp only [List.foldl_cons]
      exact ih _ hmem hnodup.2

theorem resolve_fold_nodup (f : YVal → YVal) (entries : List (String × YVal))
    (acc : List (String × YVal)) (h : (acc.map Prod.fst).Nodup) :
    ((entries.foldl (fun a ce => pySet a ce.1 (f ce.2)) acc).map Prod.fst).Nodup := by
  induction entries generalizing acc with
  | nil => exact h
  | cons hd tl ih =>
    simp only [List.foldl_cons]
    exact ih _ (pySet_keys_nodup _ _ _ h)

/-- The resolved mapping produced by `YAMLProcessor.resolve` has no duplicate
keys (`resolved[comp] = ...` into a fresh dict). -/
theorem resolve_keys_nodup (fs : FS) (base : YVal) (path theme : String) :
    ((resolve fs base path theme).map Prod.fst).Nodup := by
  unfold resolve
  exact resolve_fold_nodup _ _ _ (by simp)

/-- The entry of the resolved mapping for a component key. -/
theorem resolve_get (fs : FS) (base : YVal) (path theme comp : String)
    (entries : List (String × YVal)) (attrs : YVal)
    (hload : load_file_cached fs path = .map entries)
    (hnodup : (entries.map Prod.fst).Nodup)
    (hmem : pyGet entries comp = some attrs) :
    pyGet (resolve fs base path theme) comp
      = some (resolveEntry base (get_theme_dict base theme) attrs) := by
  unfold resolve
  simp only [hload, yamlToDict]
  exact resolve_fold_get _ _ _ _ _ hmem hnodup

end YAMLProcessor

/-- C2 — Fallback-to-original: a component-document entry whose candidate
list yields no accepted resolution (the loop either accepts nothing, or
`break`s with `found = None`) is mapped by `YAMLProcessor.resolve` to its
original, unresolved `attrs` value — and hence never to `null` unless the
original itself is `null`. -/
theorem c2_fallback_to_original (fs : FS) (base : YVal) (path theme comp : String)
    (entries : List (String × YVal)) (attrs : YVal)
    (hload : YAMLProcessor.load_file_cached fs path = .map entries)
    (hnodup : (entries.map Prod.fst).Nodup)
    (hmem : pyGet entries comp = some attrs)
    (hnoaccept :
      YAMLProcessor.acceptCandidates (YAMLProcessor.get_theme_dict base theme)
          (YAMLProcessor.mkKeys base attrs) = none ∨
      YAMLProcessor.acceptCandidates (YAMLProcessor.get_theme_dict base theme)
          (YAMLProcessor.mkKeys base attrs) = some .null) :
    pyGet (YAMLProcessor.resolve fs base path theme) comp = some attrs ∧
      (attrs ≠ .null →
        pyGet (YAMLProcessor.resolve fs base path theme) comp ≠ some YVal.null) := by
  have hget := YAMLProcessor.resolve_get fs base path theme comp entries attrs hload hnodup hmem
  have hentry : YAMLProcessor.resolveEntry base (YAMLProcessor.get_theme_dict base theme) attrs
      = attrs := by
    unfold YAMLProcessor.resolveEntry
    rcases hnoaccept with h | h <;> rw [h]
  rw [hentry] at hget
  refine ⟨hget, fun hne hcontra => ?_⟩
  rw [hget] at hcontra
  exact hne (Option.some.injEq _ _ ▸ hcontra)

/-- The filesystem of the C2 witness: a component document whose only entry
is an unresolvable reference expression, and a base document without the
referenced path. -/
def c2fs : FS := fun p =>
  if p = "pylunix/controls/x/x.yaml" then some (.map [("Foo", .s "\x7bMissing.Path\x7d")])
  else none

/-- C2 witness: with component entry `Foo: "{Missing.Path}"` and no matching
theme key, the resolved value for `Foo` is the literal original string. -/
theorem c2_fallback_to_original_witness :
    pyGet (YAMLProcessor.resolve c2fs (.map [("Default", .map [("Accent", .s "#FF0000")])])
        "pylunix/controls/x/x.yaml" "Default") "Foo" = some (.s "\x7bMissing.Path\x7d") ∧
      (YVal.s "\x7bMissing.Path\x7d" ≠ .null →
        pyGet (YAMLProcessor.resolve c2fs (.map [("Default", .map [("Accent", .s "#FF0000")])])
          "pylunix/controls/x/x.yaml" "Default") "Foo" ≠ some YVal.null) :=
  c2_fallback_to_original c2fs (.map [("Default", .map [("Accent", .s "#FF0000")])])
    "pylunix/controls/x/x.yaml" "Default" "Foo" [("Foo", .s "\x7bMissing.Path\x7d")]
    (.s "\x7bMissing.Path\x7d") rfl (by simp) rfl (Or.inl rfl)

/-! ## Lemmas about the substitution engine -/

namespace QSSProcessor

/-- If no variable name has a boundary-valid occurrence anywhere in the text,
the scan leaves the text unchanged. -/
theorem substAux_no_occurrence (vars : List (String × YVal)) (keys : List String) :
    ∀ (fuel : Nat) (prev : Option Char) (cs : List Char),
    hasTokenOccurrence keys prev cs = false →
    substAux vars keys fuel prev cs = cs := by
  intro fuel
  induction fuel with
  | zero => intro prev cs _; rfl
  | succ n ih =>
    intro prev cs h
    cases cs with
    | nil => rfl
    | cons c cs' =>
      unfold hasTokenOccurrence at h
      rw [Bool.or_eq_false_iff] at h
      have h1 : findKeyAt prev (c :: cs') keys = none := by
        cases hf : findKeyAt prev (c :: cs') keys with
        | none => rfl
        | some k => rw [hf] at h; simp at h
      unfold substAux
      rw [h1, ih (some c) cs' h.2]

theorem mem_insertLenDesc (k : String) (l : List String) (y : String) :
    y ∈ insertLenDesc k l ↔ y = k ∨ y ∈ l := by
  induction l with
  | nil => simp [insertLenDesc]
  | cons x xs ih =>
    unfold insertLenDesc
    by_cases h : x.length ≤ k.length
    · simp only [if_pos h, List.mem_cons]
    · simp only [if_neg h, List.mem_cons, ih]
      tauto

theorem mem_sortLenDesc (l : List String) (y : String) :
    y ∈ sortLenDesc l ↔ y ∈ l := by
  induction l with
  | nil => simp [sortLenDesc]
  | cons x xs ih =>
    unfold sortLenDesc
    rw [mem_insertLenDesc, ih, List.mem_cons]

theorem pairwise_insertLenDesc (k : String) (l : List String)
    (h : l.Pairwise (fun a b => b.length ≤ a.length)) :
    (insertLenDesc k l).Pairwise (fun a b => b.length ≤ a.length) := by
  induction l with
  | nil => simp [insertLenDesc]
  | cons x xs ih =>
    rw [List.pairwise_cons] at h
    unfold insertLenDesc
    by_cases hx : x.length ≤ k.length
    · rw [if_pos hx, List.pairwise_cons]
      refine ⟨?_, List.pairwise_cons.2 h⟩
      intro y hy
      rcases List.mem_cons.1 hy with rfl | hy
      · exact hx
      · exact le_trans (h.1 y hy) hx
    · rw [if_neg hx, List.pairwise_cons]
      refine ⟨?_, ih h.2⟩
      intro y hy
      rcases (mem_insertLenDesc k xs y).1 hy with rfl | hy
      · exact le_of_lt (lt_of_not_le hx)
      · exact h.1 y hy

/-- The compiled alternation really is sorted, longest names first. -/
theorem pairwise_sortLenDesc (l : List String) :
    (sortLenDesc l).Pairwise (fun a b => b.length ≤ a.length) := by
  induction l with
  | nil => simp [sortLenDesc]
  | cons x xs ih => exact pairwise_insertLenDesc x _ ih

/-- In a longest-first alternation, the name chosen at a position is at least
as long as any name that matches there. -/
theorem findKeyAt_length_ge (prev : Option Char) (cs : List Char) :
    ∀ (keys : List String) (k k2 : String),
    keys.Pairwise (fun a b => b.length ≤ a.length) →
    k2 ∈ keys → matchKeyAt prev k2.data cs = true →
    findKeyAt prev cs keys = some k → k2.length ≤ k.length := by
  intro keys
  induction keys with
  | nil => intro k k2 _ h2; simp at h2
  | cons k0 rest ih =>
    intro k k2 hpw h2 hmatch hfind
    rw [List.pairwise_cons] at hpw
    unfold findKeyAt at hfind
    by_cases h0 : matchKeyAt prev k0.data cs = true
    · rw [if_pos h0] at hfind
      injection hfind with hk
      subst hk
      rcases List.mem_cons.1 h2 with rfl | h2
      · exact le_refl _
      · exact hpw.1 k2 h2
    · rw [if_neg h0] at hfind
      rcases List.mem_cons.1 h2 with rfl | h2
      · exact absurd hmatch h0
      · exact ih k k2 hpw.2 h2 hmatch hfind

end QSSProcessor

/-- C3 — Word-boundary, longest-first substitution: (i) a text with no
whole-token occurrence of any variable name (every occurrence is adjacent to a
letter, digit or underscore) expands to itself, for every variable mapping and
fuel; (ii) at any scan position where a longer name `k2` matches with valid
boundaries, the alternation never selects a strictly shorter name `k1` that is
a prefix of `k2`; (iii) with variables `{"Accent": "#FF0000", "AccentDark":
"#AA0000"}`, the text `"color: AccentDark;"` expands to `"color: #AA0000;"`. -/
theorem c3_word_boundary_longest_first :
    (∀ (vars : List (String × YVal)) (prev : Option Char) (cs : List Char) (fuel : Nat),
        QSSProcessor.hasTokenOccurrence (QSSProcessor.patternKeys vars) prev cs = false →
        QSSProcessor.substAux vars (QSSProcessor.patternKeys vars) fuel prev cs = cs) ∧
    (∀ (vars : List (String × YVal)) (prev : Option Char) (cs : List Char) (k k1 k2 : String),
        k1 ∈ vars.map Prod.fst → k2 ∈ vars.map Prod.fst →
        List.IsPrefix k1.data k2.data → k1.length < k2.length →
        QSSProcessor.matchKeyAt prev k2.data cs = true →
        QSSProcessor.findKeyAt prev cs (QSSProcessor.patternKeys vars) = some k →
        k ≠ k1) ∧
    QSSProcessor.apply_to_string [("Accent", YVal.s "#FF0000"), ("AccentDark", YVal.s "#AA0000")]
        "color: AccentDark;" = "color: #AA0000;" := by
  refine ⟨?_, ?_, rfl⟩
  · intro vars prev cs fuel h
    exact QSSProcessor.substAux_no_occurrence vars _ fuel prev cs h
  · intro vars prev cs k k1 k2 _ h2 _ hlt hmatch hfind heq
    have hk2 : k2 ∈ QSSProcessor.patternKeys vars :=
      (QSSProcessor.mem_sortLenDesc _ k2).2 h2
    have hge := QSSProcessor.findKeyAt_length_ge prev cs (QSSProcessor.patternKeys vars)
      k k2 (QSSProcessor.pairwise_sortLenDesc _) hk2 hmatch hfind
    rw [heq] at hge
    exact absurd hge (not_le_of_lt hlt)

/-- The variable mapping of the C3 witness. -/
def c3vars : List (String × YVal) := [("Accent", .s "#FF0000"), ("AccentDark", .s "#AA0000")]

/-- C3 witness: `"xAccent"` (occurrence preceded by a word character) is left
unchanged by the scan, and at the start of an `"AccentDark"` occurrence the
alternation does not select its prefix `"Accent"`. -/
theorem c3_word_boundary_longest_first_witness :
    QSSProcessor.substAux c3vars (QSSProcessor.patternKeys c3vars) 7 none
        "xAccent".data = "xAccent".data ∧
      ("AccentDark" : String) ≠ "Accent" := by
  constructor
  · exact c3_word_boundary_longest_first.1 c3vars none "xAccent".data 7 rfl
  · exact c3_word_boundary_longest_first.2.1 c3vars (some ' ') "AccentDark;".data
      "AccentDark" "Accent" "AccentDark" (by simp [c3vars]) (by simp [c3vars])
      ⟨"Dark".data, rfl⟩ (by decide) rfl rfl

/-! ## Concrete scenarios -/

/-- A world with no template files and no live widgets (shared by several
concrete scenarios). -/
def noWidgetWorld : World :=
  { tfs := fun _ => none
    alive := fun _ => false
    prop := fun _ => none
    hasUpdateIcon := fun _ => false
    setOk := fun _ => true
    iconOk := fun _ => true }

/-- The C1 filesystem: a base document with `Default.ButtonForeground =
"#000000"` and `Dark.ButtonForeground = "#FFFFFF"`, and a component document
`button.yaml` with the single entry `ButtonForeground: "ButtonForeground"` (a
literal matching a theme-namespace key). -/
def c1fs : FS := fun p =>
  if p = ThemeManager.common_yaml_path then
    some (.map [("Default", .map [("ButtonForeground", .s "#000000")]),
                ("Dark", .map [("ButtonForeground", .s "#FFFFFF")])])
  else if p = "pylunix/controls/button/button.yaml" then
    some (.map [("ButtonForeground", .s "ButtonForeground")])
  else none

/-- C1 — End-to-end resolution with theme switch:
`get_resolved_value("ButtonForeground", "controls", "button")` returns
`"#000000"` under the initial theme `"Default"`, and after
`set_theme("Dark")` the same call returns `"#FFFFFF"`. -/
theorem c1_end_to_end_theme_switch :
    (ThemeManager.get_resolved_value c1fs (ThemeManager.init c1fs)
        "ButtonForeground" "controls" "button").2 = .s "#000000" ∧
      (ThemeManager.get_resolved_value c1fs
          (ThemeManager.set_theme c1fs noWidgetWorld
            (ThemeManager.get_resolved_value c1fs (ThemeManager.init c1fs)
              "ButtonForeground" "controls" "button").1 "Dark").1
          "ButtonForeground" "controls" "button").2 = .s "#FFFFFF" :=
  ⟨rfl, rfl⟩

/-- The C4 filesystem: a common document, but no component documents at all —
in particular `pylunix/controls/ghost/ghost.yaml` is missing. -/
def c4fs : FS := fun p =>
  if p = ThemeManager.common_yaml_path then some (.map [("Accent", .s "#FF0000")])
  else none

/-- C4 — What the code actually does on a missing token file: the loader
itself degrades to an empty document (`load_file_cached` returns `{}`), but
`load_component` then raises `UnboundLocalError` at `return value`
(theme_manager.py:63) because its `for name, value in resolved_data.items()`
loop bound no variables — after having already mutated the caches and the
loaded-component set.  `register` propagates the same exception.  This
contradicts the claim (and the spec's "never a crash" policy, which the
`except FileNotFoundError` handler shows to be the intent). -/
theorem c4_missing_token_file_crashes :
    YAMLProcessor.load_file_cached c4fs "pylunix/controls/ghost/ghost.yaml" = .map [] ∧
      (ThemeManager.load_component c4fs (ThemeManager.init c4fs) "controls" "ghost").2
        = .error .unboundLocal ∧
      (ThemeManager.load_component c4fs (ThemeManager.init c4fs) "controls" "ghost").1.loadedComponents
        = ["ghost"] ∧
      (ThemeManager.register c4fs noWidgetWorld (ThemeManager.init c4fs) 0 "controls" "ghost").2
        = .error .unboundLocal :=
  ⟨rfl, rfl, rfl, rfl⟩

/-- C5 — Resolution idempotence via cache: two successive
`get_resolved_data_and_path` calls for the same component (same state, no
`set_theme` between) return identical resolved maps and paths; the first call
leaves the component in the resolved cache, and the second call is a pure
cache hit — it changes nothing and runs `YAMLProcessor.resolve` zero times
(the ghost `resolveCount` is unchanged). -/
theorem c5_resolution_idempotent_cache (fs : FS) (s : Sys) (dir comp : String) :
    (ThemeManager.get_resolved_data_and_path fs
        (ThemeManager.get_resolved_data_and_path fs s dir comp).1 dir comp).2.1
      = (ThemeManager.get_resolved_data_and_path fs s dir comp).2.1 ∧
    (ThemeManager.get_resolved_data_and_path fs
        (ThemeManager.get_resolved_data_and_path fs s dir comp).1 dir comp).2.2
      = (ThemeManager.get_resolved_data_and_path fs s dir comp).2.2 ∧
    (ThemeManager.get_resolved_data_and_path fs
        (ThemeManager.get_resolved_data_and_path fs s dir comp).1 dir comp).1
      = (ThemeManager.get_resolved_data_and_path fs s dir comp).1 ∧
    pyGet (ThemeManager.get_resolved_data_and_path fs s dir comp).1.resolvedCache comp
      = some ((ThemeManager.get_resolved_data_and_path fs s dir comp).2.1,
              (ThemeManager.get_resolved_data_and_path fs s dir comp).2.2) ∧
    (ThemeManager.get_resolved_data_and_path fs
        (ThemeManager.get_resolved_data_and_path fs s dir comp).1 dir comp).1.resolveCount
      = (ThemeManager.get_resolved_data_and_path fs s dir comp).1.resolveCount := by
  have hcache : pyGet (ThemeManager.get_resolved_data_and_path fs s dir comp).1.resolvedCache comp
      = some ((ThemeManager.get_resolved_data_and_path fs s dir comp).2.1,
              (ThemeManager.get_resolved_data_and_path fs s dir comp).2.2) := by
    unfold ThemeManager.get_resolved_data_and_path
    cases h : pyGet s.resolvedCache comp with
    | some e => simp [h]
    | none => simp [h, pyGet_pySet_self]
  have h2 : ThemeManager.get_resolved_data_and_path fs
        (ThemeManager.get_resolved_data_and_path fs s dir comp).1 dir comp
      = ((ThemeManager.get_resolved_data_and_path fs s dir comp).1,
         (ThemeManager.get_resolved_data_and_path fs s dir comp).2.1,
         (ThemeManager.get_resolved_data_and_path fs s dir comp).2.2) := by
    rw [ThemeManager.get_resolved_data_and_path, hcache]
  rw [h2]
  exact ⟨rfl, rfl, rfl, hcache, rfl⟩

/-- C6 — `set_theme` no-op on the unchanged theme: when the requested theme
equals the active one, `set_theme` returns immediately with the entire state —
active theme, resolved-map cache, raw-document cache, loaded-component set,
accumulated variable map, widget registry, applied widget styles — exactly as
it was, and reloads nothing. -/
theorem c6_set_theme_noop_on_unchanged (fs : FS) (w : World) (s : Sys) (t : String)
    (h : s.theme = t) :
    ThemeManager.set_theme fs w s t = (s, .ok ()) := by
  simp [ThemeManager.set_theme, h]

/-- C6 witness: setting `"Default"` on the freshly initialized manager (whose
active theme is `"Default"`) changes nothing. -/
theorem c6_set_theme_noop_on_unchanged_witness :
    ThemeManager.set_theme c1fs noWidgetWorld (ThemeManager.init c1fs) "Default"
      = (ThemeManager.init c1fs, .ok ()) :=
  c6_set_theme_noop_on_unchanged c1fs noWidgetWorld (ThemeManager.init c1fs) "Default" rfl

/-! ## Batch restyle (`update_all`) and re-registration -/

namespace WidgetRegistry

/-- The iteration log of `update_all_aux` is exactly the widgets of the items
it was given, whatever the world does (style failures are caught per widget
and never shorten the iteration). -/
theorem update_all_aux_log (w : World) :
    ∀ (items : List (Wid × Option String)) (s : Sys),
    (update_all_aux w items s).2 = items.map Prod.fst := by
  intro items
  induction items with
  | nil => intro s; rfl
  | cons hd tl ih =>
    intro s
    obtain ⟨wid, comp⟩ := hd
    simp only [update_all_aux]
    cases h : update_all_aux w tl (update_one w s wid comp) with
    | mk s2 l =>
      have hl := ih (update_one w s wid comp)
      rw [h] at hl
      simpa using hl

end WidgetRegistry

/-- C8 — Batch restyle robustness: `update_all` iterates exactly the
still-alive registered widgets — for every world (including worlds in which
any subset of `setStyleSheet` calls fail, all caught per widget) — so a
destroyed widget is never part of its work, and one widget's style failure
never aborts the restyle of the remaining widgets.  `update_all` is a total
function of the state: it raises nothing. -/
theorem c8_update_all_skips_dead_never_aborts (w : World) (s : Sys) :
    (WidgetRegistry.update_all w s).2
        = (s.regWidgets.filter (fun p => w.alive p.1)).map Prod.fst ∧
      ∀ wid, w.alive wid = false → wid ∉ (WidgetRegistry.update_all w s).2 := by
  have h1 : (WidgetRegistry.update_all w s).2
      = (s.regWidgets.filter (fun p => w.alive p.1)).map Prod.fst :=
    WidgetRegistry.update_all_aux_log w _ s
  refine ⟨h1, ?_⟩
  intro wid hdead hmem
  rw [h1] at hmem
  rcases List.mem_map.1 hmem with ⟨p, hp, hfst⟩
  have hfilter := (List.mem_filter.1 hp).2
  rw [hfst] at hfilter
  rw [hdead] at hfilter
  exact Bool.false_ne_true hfilter

/-- The C8 witness world: widgets 1 and 3 alive, widget 2 destroyed; the
stylesheet application on widget 1 fails (and is caught). -/
def c8world : World :=
  { tfs := fun p => if p = "pylunix/controls/button/button.qss" then
      some "QPushButton \x7b color: Accent; \x7d" else none
    alive := fun wid => wid = 1 || wid = 3
    prop := fun _ => none
    hasUpdateIcon := fun _ => false
    setOk := fun wid => wid != 1
    iconOk := fun _ => true }

/-- The C8 witness state: three registered widgets, one of them destroyed. -/
def c8sys : Sys :=
  { ThemeManager.init c1fs with
      regWidgets := [(1, some "button"), (2, some "button"), (3, some "button")] }

/-- C8 witness: the batch processes widgets 1 and 3 (widget 1's failure does
not abort widget 3), and the destroyed widget 2 is not part of the work. -/
theorem c8_update_all_skips_dead_never_aborts_witness :
    (WidgetRegistry.update_all c8world c8sys).2 = [1, 3] ∧
      2 ∉ (WidgetRegistry.update_all c8world c8sys).2 :=
  ⟨((c8_update_all_skips_dead_never_aborts c8world c8sys).1).trans rfl,
    (c8_update_all_skips_dead_never_aborts c8world c8sys).2 2 rfl⟩

/-- C10 — Re-registration does not restyle: registering a widget already
present in the registry only rewrites its widget-to-component association
(keeping its position) and returns — no template is read, no stylesheet is
expanded or applied, and every other part of the state (template and
processed caches, qss-path caches, applied widget styles, theme-manager
state) is exactly as before. -/
theorem c10_reregister_only_updates_association (w : World) (s : Sys) (wid : Wid)
    (comp : Option String) (halive : w.alive wid = true)
    (hmem : (pyGet s.regWidgets wid).isSome = true) :
    WidgetRegistry.register w s wid comp
      = { s with regWidgets := pySet s.regWidgets wid comp } := by
  unfold WidgetRegistry.register
  rw [halive, hmem]
  simp

/-- C10 witness: re-registering the already-registered widget 1 under a new
component name only rewrites the association. -/
theorem c10_reregister_only_updates_association_witness :
    WidgetRegistry.register c8world c8sys 1 (some "check_box")
      = { c8sys with regWidgets := pySet c8sys.regWidgets 1 (some "check_box") } :=
  c10_reregister_only_updates_association c8world c8sys 1 (some "check_box") rfl rfl

/-! ## State invariants

`VarsInv`: the `QSSProcessor`'s active variable mapping equals the
`ThemeManager`'s accumulated `component_resources` map (in the source the two
are the very same dict object, re-pushed by `set_variables` after every
merge).  `TplInv`: the template caches only ever hold paths whose template
file exists (every insertion is guarded by a successful existence check). -/

def VarsInv (s : Sys) : Prop := s.qssVariables = s.componentResources

def TplInv (w : World) (s : Sys) : Prop :=
  ∀ p, w.tfs p = none →
    pyGet s.templateCache p = none ∧ pyGet s.processedCache p = none

theorem tplInv_transport {w : World} {s s' : Sys}
    (ht : s'.templateCache = s.templateCache)
    (hp : s'.processedCache = s.processedCache)
    (h : TplInv w s) : TplInv w s' := by
  intro q hq
  rw [ht, hp]
  exact h q hq

theorem read_template_frame (w : World) (s : Sys) (p : String) :
    (QSSProcessor.read_template w s p).1.qssVariables = s.qssVariables ∧
    (QSSProcessor.read_template w s p).1.componentResources = s.componentResources ∧
    (TplInv w s → TplInv w (QSSProcessor.read_template w s p).1) := by
  unfold QSSProcessor.read_template
  cases hc : pyGet s.templateCache p with
  | some c => exact ⟨rfl, rfl, fun h => h⟩
  | none =>
    cases ht : w.tfs p with
    | none => exact ⟨rfl, rfl, fun h => h⟩
    | some content =>
      refine ⟨rfl, rfl, fun h q hq => ?_⟩
      have hne : p ≠ q := fun hpq => by rw [hpq, hq] at ht; exact Option.noConfusion ht
      exact ⟨by simpa [pyGet_pySet_ne _ _ _ _ hne] using (h q hq).1, (h q hq).2⟩

theorem read_template_ok_exists (w : World) (s : Sys) (p t : String)
    (hok : (QSSProcessor.read_template w s p).2 = .ok t)
    (hinv : TplInv w s) : w.tfs p ≠ none := by
  intro hnone
  have hcache := (hinv p hnone).1
  unfold QSSProcessor.read_template at hok
  rw [hcache, hnone] at hok
  exact Except.noConfusion hok

theorem get_processed_frame (w : World) (s : Sys) (p : String) :
    (QSSProcessor.get_processed_stylesheet w s p).1.qssVariables = s.qssVariables ∧
    (QSSProcessor.get_processed_stylesheet w s p).1.componentResources = s.componentResources ∧
    (TplInv w s → TplInv w (QSSProcessor.get_processed_stylesheet w s p).1) := by
  simp only [QSSProcessor.get_processed_stylesheet]
  cases hc : pyGet s.processedCache p with
  | some c => exact ⟨rfl, rfl, fun h => h⟩
  | none =>
    have hf := read_template_frame w s p
    cases hr : (QSSProcessor.read_template w s p).2 with
    | error e => exact ⟨hf.1, hf.2.1, hf.2.2⟩
    | ok t =>
      refine ⟨hf.1, hf.2.1, fun h q hq => ?_⟩
      have hinv1 : TplInv w (QSSProcessor.read_template w s p).1 := hf.2.2 h
      have hpq : p ≠ q := by
        intro hpq
        subst hpq
        exact read_template_ok_exists w s p t hr h hq
      exact ⟨(hinv1 q hq).1,
        by simpa [pyGet_pySet_ne _ _ _ _ hpq] using (hinv1 q hq).2⟩

theorem get_qss_path_frame (w : World) (s : Sys) (comp : Option String) :
    (WidgetRegistry.get_qss_path w s comp).1.qssVariables = s.qssVariables ∧
    (WidgetRegistry.get_qss_path w s comp).1.componentResources = s.componentResources ∧
    (WidgetRegistry.get_qss_path w s comp).1.templateCache = s.templateCache ∧
    (WidgetRegistry.get_qss_path w s comp).1.processedCache = s.processedCache := by
  simp only [WidgetRegistry.get_qss_path]
  repeat' split
  all_goals exact ⟨rfl, rfl, rfl, rfl⟩

theorem try_apply_file_frame (w : World) (s : Sys) (wid : Wid) (p : String) :
    (WidgetRegistry.try_apply_file w s wid p).1.qssVariables = s.qssVariables ∧
    (WidgetRegistry.try_apply_file w s wid p).1.componentResources = s.componentResources ∧
    (TplInv w s → TplInv w (WidgetRegistry.try_apply_file w s wid p).1) := by
  simp only [WidgetRegistry.try_apply_file]
  have hf := get_processed_frame w s p
  split
  · exact ⟨hf.1, hf.2.1, hf.2.2⟩
  · split
    · exact ⟨hf.1, hf.2.1, fun h => tplInv_transport rfl rfl (hf.2.2 h)⟩
    · exact ⟨hf.1, hf.2.1, hf.2.2⟩

theorem prop_fallback_frame (w : World) (s : Sys) (wid : Wid) :
    (WidgetRegistry.prop_fallback w s wid).1.qssVariables = s.qssVariables ∧
    (WidgetRegistry.prop_fallback w s wid).1.componentResources = s.componentResources ∧
    (TplInv w s → TplInv w (WidgetRegistry.prop_fallback w s wid).1) := by
  simp only [WidgetRegistry.prop_fallback]
  split
  · split
    · exact ⟨rfl, rfl, fun h => h⟩
    · split
      · exact try_apply_file_frame w s wid _
      · exact ⟨rfl, rfl, fun h => h⟩
  · exact ⟨rfl, rfl, fun h => h⟩

theorem apply_steps_frame (w : World) (s : Sys) (wid : Wid) (comp : Option String) :
    (WidgetRegistry.apply_steps w s wid comp).1.qssVariables = s.qssVariables ∧
    (WidgetRegistry.apply_steps w s wid comp).1.componentResources = s.componentResources ∧
    (TplInv w s → TplInv w (WidgetRegistry.apply_steps w s wid comp).1) := by
  simp only [WidgetRegistry.apply_steps]
  have hq := get_qss_path_frame w s comp
  have hqinv : TplInv w s → TplInv w (WidgetRegistry.get_qss_path w s comp).1 :=
    fun h => tplInv_transport hq.2.2.1 hq.2.2.2 h
  split
  next p hp =>
    have ht := try_apply_file_frame w (WidgetRegistry.get_qss_path w s comp).1 wid p
    split
    · exact ⟨ht.1.trans hq.1, ht.2.1.trans hq.2.1, fun h => ht.2.2 (hqinv h)⟩
    · have hg := prop_fallback_frame w
        (WidgetRegistry.try_apply_file w (WidgetRegistry.get_qss_path w s comp).1 wid p).1 wid
      exact ⟨hg.1.trans (ht.1.trans hq.1), hg.2.1.trans (ht.2.1.trans hq.2.1),
        fun h => hg.2.2 (ht.2.2 (hqinv h))⟩
  next hp =>
    have hf := prop_fallback_frame w (WidgetRegistry.get_qss_path w s comp).1 wid
    exact ⟨hf.1.trans hq.1, hf.2.1.trans hq.2.1, fun h => hf.2.2 (hqinv h)⟩

theorem registry_register_frame (w : World) (s : Sys) (wid : Wid) (comp : Option String) :
    (WidgetRegistry.register w s wid comp).qssVariables = s.qssVariables ∧
    (WidgetRegistry.register w s wid comp).componentResources = s.componentResources ∧
    (TplInv w s → TplInv w (WidgetRegistry.register w s wid comp)) := by
  unfold WidgetRegistry.register
  by_cases hc : (w.alive wid && (pyGet s.regWidgets wid).isSome) = true
  · rw [if_pos hc]
    exact ⟨rfl, rfl, fun h => tplInv_transport rfl rfl h⟩
  · rw [if_neg hc]
    have hf := apply_steps_frame w { s with regWidgets := pySet s.regWidgets wid comp } wid comp
    exact ⟨hf.1, hf.2.1, fun h => hf.2.2 (tplInv_transport rfl rfl h)⟩

theorem update_all_aux_frame (w : World) :
    ∀ (items : List (Wid × Option String)) (s : Sys),
    (WidgetRegistry.update_all_aux w items s).1.qssVariables = s.qssVariables ∧
    (WidgetRegistry.update_all_aux w items s).1.componentResources = s.componentResources ∧
    (TplInv w s → TplInv w (WidgetRegistry.update_all_aux w items s).1) := by
  intro items
  induction items with
  | nil => intro s; exact ⟨rfl, rfl, fun h => h⟩
  | cons hd tl ih =>
    intro s
    obtain ⟨wid, comp⟩ := hd
    have hone := apply_steps_frame w s wid comp
    have ihs := ih (WidgetRegistry.update_one w s wid comp)
    exact ⟨ihs.1.trans hone.1, ihs.2.1.trans hone.2.1, fun h => ihs.2.2 (hone.2.2 h)⟩

theorem update_all_frame (w : World) (s : Sys) :
    (WidgetRegistry.update_all w s).1.qssVariables = s.qssVariables ∧
    (WidgetRegistry.update_all w s).1.componentResources = s.componentResources ∧
    (TplInv w s → TplInv w (WidgetRegistry.update_all w s).1) :=
  update_all_aux_frame w _ s

theorem varsInv_transport {s s' : Sys}
    (hq : s'.qssVariables = s.qssVariables)
    (hc : s'.componentResources = s.componentResources)
    (h : VarsInv s) : VarsInv s' := by
  unfold VarsInv at *
  rw [hq, hc, h]

theorem grdp_frame (fs : FS) (s : Sys) (dir comp : String) :
    (ThemeManager.get_resolved_data_and_path fs s dir comp).1.qssVariables = s.qssVariables ∧
    (ThemeManager.get_resolved_data_and_path fs s dir comp).1.componentResources = s.componentResources ∧
    (ThemeManager.get_resolved_data_and_path fs s dir comp).1.templateCache = s.templateCache ∧
    (ThemeManager.get_resolved_data_and_path fs s dir comp).1.processedCache = s.processedCache := by
  simp only [ThemeManager.get_resolved_data_and_path]
  split
  · exact ⟨rfl, rfl, rfl, rfl⟩
  · exact ⟨rfl, rfl, rfl, rfl⟩

theorem get_default_frame (fs : FS) (s : Sys) (p name : String) :
    (ThemeManager.get_default_value fs s p name).1.qssVariables = s.qssVariables ∧
    (ThemeManager.get_default_value fs s p name).1.componentResources = s.componentResources ∧
    (ThemeManager.get_default_value fs s p name).1.templateCache = s.templateCache ∧
    (ThemeManager.get_default_value fs s p name).1.processedCache = s.processedCache := by
  simp only [ThemeManager.get_default_value]
  repeat' split
  all_goals exact ⟨rfl, rfl, rfl, rfl⟩

theorem get_resolved_value_frame (fs : FS) (s : Sys) (name dir comp : String) :
    (ThemeManager.get_resolved_value fs s name dir comp).1.qssVariables = s.qssVariables ∧
    (ThemeManager.get_resolved_value fs s name dir comp).1.componentResources = s.componentResources ∧
    (ThemeManager.get_resolved_value fs s name dir comp).1.templateCache = s.templateCache ∧
    (ThemeManager.get_resolved_value fs s name dir comp).1.processedCache = s.processedCache := by
  simp only [ThemeManager.get_resolved_value]
  have hg := grdp_frame fs s dir comp
  have hd := get_default_frame fs (ThemeManager.get_resolved_data_and_path fs s dir comp).1
    (ThemeManager.get_resolved_data_and_path fs s dir comp).2.2 name
  split
  · exact ⟨hd.1.trans hg.1, hd.2.1.trans hg.2.1, hd.2.2.1.trans hg.2.2.1,
      hd.2.2.2.trans hg.2.2.2⟩
  · exact hg
  · exact ⟨hd.1.trans hg.1, hd.2.1.trans hg.2.1, hd.2.2.1.trans hg.2.2.1,
      hd.2.2.2.trans hg.2.2.2⟩

theorem loadEntries_frame (fs : FS) (path : String) :
    ∀ (d : List (String × YVal)) (s : Sys),
    (ThemeManager.loadEntries fs path d s).1.qssVariables = s.qssVariables ∧
    (ThemeManager.loadEntries fs path d s).1.templateCache = s.templateCache ∧
    (ThemeManager.loadEntries fs path d s).1.processedCache = s.processedCache := by
  intro d
  induction d with
  | nil => intro s; exact ⟨rfl, rfl, rfl⟩
  | cons hd tl ih =>
    intro s
    obtain ⟨name, v⟩ := hd
    simp only [ThemeManager.loadEntries]
    cases v with
    | null =>
      have hd0 := get_default_frame fs s path name
      split
      · exact ⟨(ih _).1.trans hd0.1, (ih _).2.1.trans hd0.2.2.1, (ih _).2.2.trans hd0.2.2.2⟩
      · exact ⟨(ih _).1.trans hd0.1, (ih _).2.1.trans hd0.2.2.1, (ih _).2.2.trans hd0.2.2.2⟩
    | b bv => split <;> exact ⟨(ih _).1, (ih _).2.1, (ih _).2.2⟩
    | num nv => split <;> exact ⟨(ih _).1, (ih _).2.1, (ih _).2.2⟩
    | s sv => split <;> exact ⟨(ih _).1, (ih _).2.1, (ih _).2.2⟩
    | seq items => split <;> exact ⟨(ih _).1, (ih _).2.1, (ih _).2.2⟩
    | map es => split <;> exact ⟨(ih _).1, (ih _).2.1, (ih _).2.2⟩

theorem load_component_inv (fs : FS) (w : World) (s : Sys) (dir comp : String) :
    (VarsInv s → VarsInv (ThemeManager.load_component fs s dir comp).1) ∧
    (TplInv w s → TplInv w (ThemeManager.load_component fs s dir comp).1) := by
  simp only [ThemeManager.load_component]
  split
  · exact ⟨fun h => h, fun h => h⟩
  · have hg := grdp_frame fs s dir comp
    have hl := loadEntries_frame fs (ThemeManager.get_resolved_data_and_path fs s dir comp).2.2
      (ThemeManager.get_resolved_data_and_path fs s dir comp).2.1
      (ThemeManager.get_resolved_data_and_path fs s dir comp).1
    split
    · refine ⟨fun _ => rfl, fun h q hq => ⟨?_, rfl⟩⟩
      have htc := (h q hq).1
      rw [← (hl.2.1.trans hg.2.2.1)] at htc
      exact htc
    · refine ⟨fun _ => rfl, fun h q hq => ⟨?_, rfl⟩⟩
      have htc := (h q hq).1
      rw [← (hl.2.1.trans hg.2.2.1)] at htc
      exact htc

theorem reloadLoop_inv (fs : FS) (w : World) :
    ∀ (cs : List String) (s : Sys),
    (VarsInv s → VarsInv (ThemeManager.reloadLoop fs cs s).1) ∧
    (TplInv w s → TplInv w (ThemeManager.reloadLoop fs cs s).1) := by
  intro cs
  induction cs with
  | nil => intro s; exact ⟨fun h => h, fun h => h⟩
  | cons c rest ih =>
    intro s
    simp only [ThemeManager.reloadLoop]
    have hl := load_component_inv fs w s "controls" c
    split
    · exact ⟨fun h => (ih _).1 (hl.1 h), fun h => (ih _).2 (hl.2 h)⟩
    · exact hl

theorem set_theme_inv (fs : FS) (w : World) (s : Sys) (t : String) :
    (VarsInv s → VarsInv (ThemeManager.set_theme fs w s t).1) ∧
    (TplInv w s → TplInv w (ThemeManager.set_theme fs w s t).1) := by
  simp only [ThemeManager.set_theme]
  split
  · exact ⟨fun h => h, fun h => h⟩
  · have hr := reloadLoop_inv fs w s.loadedComponents
      { s with theme := t, resolvedCache := [], loadedComponents := [] }
    have hu := update_all_frame w
      (ThemeManager.reloadLoop fs s.loadedComponents
        { s with theme := t, resolvedCache := [], loadedComponents := [] }).1
    split
    · exact ⟨fun h => varsInv_transport hu.1 hu.2.1 (hr.1 h), fun h => hu.2.2 (hr.2 h)⟩
    · exact hr

theorem tm_register_inv (fs : FS) (w : World) (s : Sys) (wid : Wid) (dir comp : String) :
    (VarsInv s → VarsInv (ThemeManager.register fs w s wid dir comp).1) ∧
    (TplInv w s → TplInv w (ThemeManager.register fs w s wid dir comp).1) := by
  simp only [ThemeManager.register]
  have hl := load_component_inv fs w s dir comp
  have hreg := registry_register_frame w (ThemeManager.load_component fs s dir comp).1 wid (some comp)
  split
  · exact ⟨fun h => varsInv_transport hreg.1 hreg.2.1 (hl.1 h), fun h => hreg.2.2 (hl.2 h)⟩
  · exact hl

/-- Both invariants hold in every reachable state: the style engine's variable
mapping always equals the accumulated resolved-token map, and the template
caches never hold a path whose file is missing. -/
theorem reachable_invs (fs : FS) (w : World) (s : Sys) (h : Reachable fs w s) :
    VarsInv s ∧ TplInv w s := by
  induction h with
  | init => exact ⟨rfl, fun p hp => ⟨rfl, rfl⟩⟩
  | load s dir comp _ ih =>
    exact ⟨(load_component_inv fs w s dir comp).1 ih.1,
      (load_component_inv fs w s dir comp).2 ih.2⟩
  | reg s wid dir comp _ ih =>
    exact ⟨(tm_register_inv fs w s wid dir comp).1 ih.1,
      (tm_register_inv fs w s wid dir comp).2 ih.2⟩
  | getVal s name dir comp _ ih =>
    have hf := get_resolved_value_frame fs s name dir comp
    exact ⟨varsInv_transport hf.1 hf.2.1 ih.1, tplInv_transport hf.2.2.1 hf.2.2.2 ih.2⟩
  | getDef s p name _ ih =>
    have hf := get_default_frame fs s p name
    exact ⟨varsInv_transport hf.1 hf.2.1 ih.1, tplInv_transport hf.2.2.1 hf.2.2.2 ih.2⟩
  | setThm s t _ ih =>
    exact ⟨(set_theme_inv fs w s t).1 ih.1, (set_theme_inv fs w s t).2 ih.2⟩
  | regW s wid comp _ ih =>
    have hf := registry_register_frame w s wid comp
    exact ⟨varsInv_transport hf.1 hf.2.1 ih.1, hf.2.2 ih.2⟩
  | upd s _ ih =>
    have hf := update_all_frame w s
    exact ⟨varsInv_transport hf.1 hf.2.1 ih.1, hf.2.2 ih.2⟩

/-- C7 — Template-load asymmetry: in any reachable state, expanding a style
template whose file does not exist is a hard `FileNotFoundError` out of
`get_processed_stylesheet` (its caches cannot hold a missing path, since every
insertion is guarded by an existence check), whereas loading a missing token
file yields the empty document `{}` rather than failing. -/
theorem c7_template_load_asymmetry (fs : FS) (w : World) (s : Sys) (p : String)
    (hreach : Reachable fs w s) (hmiss : w.tfs p = none) :
    (QSSProcessor.get_processed_stylesheet w s p).2 = .error .fileNotFound ∧
      ∀ q, fs q = none → YAMLProcessor.load_file_cached fs q = .map [] := by
  have hcaches := (reachable_invs fs w s hreach).2 p hmiss
  constructor
  · have hread : (QSSProcessor.read_template w s p).2 = .error .fileNotFound := by
      simp only [QSSProcessor.read_template]
      rw [hcaches.1, hmiss]
    simp only [QSSProcessor.get_processed_stylesheet]
    rw [hcaches.2, hread]
  · intro q hq
    simp [YAMLProcessor.load_file_cached, hq]

/-- C7 witness: on the freshly initialized manager in a world with no template
files, expanding `button.qss` fails with `FileNotFoundError` while the missing
token document `missing.yaml` loads as the empty document. -/
theorem c7_template_load_asymmetry_witness :
    (QSSProcessor.get_processed_stylesheet noWidgetWorld (ThemeManager.init c1fs)
        "pylunix/controls/button/button.qss").2 = .error .fileNotFound ∧
      YAMLProcessor.load_file_cached c1fs "missing.yaml" = .map [] :=
  ⟨(c7_template_load_asymmetry c1fs noWidgetWorld (ThemeManager.init c1fs)
      "pylunix/controls/button/button.qss" Reachable.init rfl).1,
   (c7_template_load_asymmetry c1fs noWidgetWorld (ThemeManager.init c1fs)
      "pylunix/controls/button/button.qss" Reachable.init rfl).2 "missing.yaml" rfl⟩

/-! ## The accumulated map after `load_component` -/

theorem loadEntries_preserve (fs : FS) (path : String) :
    ∀ (d : List (String × YVal)) (s : Sys) (n : String),
    n ∉ d.map Prod.fst →
    pyGet (ThemeManager.loadEntries fs path d s).1.componentResources n
      = pyGet s.componentResources n := by
  intro d
  induction d with
  | nil => intro s n _; rfl
  | cons hd tl ih =>
    intro s n hn
    obtain ⟨k0, v⟩ := hd
    simp only [List.map_cons, List.mem_cons] at hn
    push_neg at hn
    have hne : k0 ≠ n := fun h => hn.1 h.symm
    simp only [ThemeManager.loadEntries]
    cases v with
    | null =>
      have hd0 := get_default_frame fs s path k0
      split <;>
        exact (ih _ n hn.2).trans ((pyGet_pySet_ne _ _ _ _ hne).trans
          (congrArg (fun m => pyGet m n) hd0.2.1))
    | b bv => split <;> exact (ih _ n hn.2).trans (pyGet_pySet_ne _ _ _ _ hne)
    | num nv => split <;> exact (ih _ n hn.2).trans (pyGet_pySet_ne _ _ _ _ hne)
    | s sv => split <;> exact (ih _ n hn.2).trans (pyGet_pySet_ne _ _ _ _ hne)
    | seq items => split <;> exact (ih _ n hn.2).trans (pyGet_pySet_ne _ _ _ _ hne)
    | map es => split <;> exact (ih _ n hn.2).trans (pyGet_pySet_ne _ _ _ _ hne)

/-- A non-`null` resolved entry survives the merge loop: after the loop, the
accumulated map holds exactly the value the component resolved for the name
(later entries of the same component have other names). -/
theorem loadEntries_get (fs : FS) (path : String) :
    ∀ (d : List (String × YVal)) (s : Sys) (n : String) (v : YVal),
    (d.map Prod.fst).Nodup → pyGet d n = some v → v ≠ .null →
    pyGet (ThemeManager.loadEntries fs path d s).1.componentResources n = some v := by
  intro d
  induction d with
  | nil => intro s n v _ hmem _; simp [pyGet] at hmem
  | cons hd tl ih =>
    intro s n v hnd hmem hv
    obtain ⟨k0, v0⟩ := hd
    simp only [List.map_cons, List.nodup_cons] at hnd
    by_cases hk : k0 = n
    · subst hk
      simp [pyGet] at hmem
      subst hmem
      simp only [ThemeManager.loadEntries]
      cases v0 with
      | null => exact absurd rfl hv
      | b bv =>
        split <;> exact (loadEntries_preserve fs path tl _ k0 hnd.1).trans (pyGet_pySet_self _ _ _)
      | num nv =>
        split <;> exact (loadEntries_preserve fs path tl _ k0 hnd.1).trans (pyGet_pySet_self _ _ _)
      | s sv =>
        split <;> exact (loadEntries_preserve fs path tl _ k0 hnd.1).trans (pyGet_pySet_self _ _ _)
      | seq items =>
        split <;> exact (loadEntries_preserve fs path tl _ k0 hnd.1).trans (pyGet_pySet_self _ _ _)
      | map es =>
        split <;> exact (loadEntries_preserve fs path tl _ k0 hnd.1).trans (pyGet_pySet_self _ _ _)
    · rw [show pyGet ((k0, v0) :: tl) n = pyGet tl n from by simp [pyGet, hk]] at hmem
      simp only [ThemeManager.loadEntries]
      cases v0 <;> (split <;> exact ih _ n v hnd.2 hmem hv)

/-- C9 — Accumulated-map/engine invariant: (i) in every reachable state the
`QSSProcessor`'s active variable mapping equals the `ThemeManager`'s
accumulated resolved-token map (in the source they are one aliased dict,
re-pushed through `set_variables` on every load); (ii) after an actual (not
yet loaded, not yet cached) `load_component`, the engine's mapping holds the
component's freshly resolved value for every non-`null` token it resolves —
so the most recently loaded component's value is what every subsequently
expanded template sees, whatever earlier components had put there. -/
theorem c9_accumulated_map_engine_invariant :
    (∀ (fs : FS) (w : World) (s : Sys), Reachable fs w s →
        s.qssVariables = s.componentResources) ∧
    (∀ (fs : FS) (s : Sys) (dir comp n : String) (v : YVal),
        s.loadedComponents.contains comp = false →
        pyGet s.resolvedCache comp = none →
        pyGet (YAMLProcessor.resolve fs
            (YAMLProcessor.load_file_cached fs ThemeManager.common_yaml_path)
            (ThemeManager.componentYamlPath dir comp) s.theme) n = some v →
        v ≠ .null →
        pyGet (ThemeManager.load_component fs s dir comp).1.qssVariables n = some v ∧
          (ThemeManager.load_component fs s dir comp).1.qssVariables
            = (ThemeManager.load_component fs s dir comp).1.componentResources) := by
  constructor
  · intro fs w s h
    exact (reachable_invs fs w s h).1
  · intro fs s dir comp n v hloaded hcache hres hv
    have hdata : (ThemeManager.get_resolved_data_and_path fs s dir comp).2.1
        = YAMLProcessor.resolve fs
            (YAMLProcessor.load_file_cached fs ThemeManager.common_yaml_path)
            (ThemeManager.componentYamlPath dir comp) s.theme := by
      simp only [ThemeManager.get_resolved_data_and_path]
      rw [hcache]
    simp only [ThemeManager.load_component]
    rw [if_neg (by simpa using hloaded), hdata]
    split <;>
      exact ⟨loadEntries_get fs _ _ _ n v
          (YAMLProcessor.resolve_keys_nodup fs _ _ _) hres hv, rfl⟩

/-- The C9 witness filesystem: `Default.T = "#111111"` in the base document
and component `b` with entry `T: "T"`. -/
def c9fs : FS := fun p =>
  if p = ThemeManager.common_yaml_path then
    some (.map [("Default", .map [("T", .s "#111111")])])
  else if p = "pylunix/controls/b/b.yaml" then
    some (.map [("T", .s "T")])
  else none

/-- C9 witness: the invariant at the (reachable) initial state, and the
engine's mapping holding the freshly loaded component's resolved value. -/
theorem c9_accumulated_map_engine_invariant_witness :
    (ThemeManager.init c9fs).qssVariables = (ThemeManager.init c9fs).componentResources ∧
      pyGet (ThemeManager.load_component c9fs (ThemeManager.init c9fs)
        "controls" "b").1.qssVariables "T" = some (.s "#111111") :=
  ⟨c9_accumulated_map_engine_invariant.1 c9fs noWidgetWorld _ Reachable.init,
   (c9_accumulated_map_engine_invariant.2 c9fs (ThemeManager.init c9fs) "controls" "b"
      "T" (.s "#111111") rfl rfl rfl (fun h => YVal.noConfusion h)).1⟩
